import Mathlib

/-!
Verification of the Transfermarkt squad scraper (`src/tm.js`).

The development shallowly embeds the scraper: the DOM tree that cheerio
produces is a mutual inductive (`DomNode`/`DomForest`), the jQuery-style
selector operations used by the source are executable walkers over that
tree, the three regular expressions of the source are translated into
direct character-list recognizers, and the per-field extraction rules of
`getClubSquad`'s row callback become one Lean function per field.  Steps
that can throw in JavaScript (calling `.split` on an undefined `href`,
indexing a `null` regex match) are modelled with `Option`; the outer
`try`/`catch` of `getClubSquad` becomes a total function from a fetch
outcome to a list of players.  JavaScript numbers are modelled as exact
rationals; every value the claims touch is exactly representable, so no
IEEE rounding is being hidden.
-/

mutual
/-- A parsed HTML element or text node, as produced by `cheerio.load`.
`DomForest` is an inlined list of nodes so that all tree walkers are
structurally recursive (and hence reduce inside the kernel). -/
inductive DomNode where
  | elem (tag : String) (classes : List String) (attrs : List (String × String)) (children : DomForest)
  | text (s : String)
inductive DomForest where
  | nil
  | cons (n : DomNode) (ns : DomForest)
end

/-- Build a `DomForest` from a list literal. -/
def forestOf : List DomNode → DomForest
  | [] => .nil
  | n :: ns => .cons n (forestOf ns)

/-- Shorthand for an element node with list-literal children. -/
def el (tag : String) (classes : List String) (attrs : List (String × String))
    (children : List DomNode) : DomNode :=
  .elem tag classes attrs (forestOf children)

/-- Shorthand for a text node. -/
def txt (s : String) : DomNode := .text s

mutual
/-- jQuery `.text()` of a single node: all descendant text, in document order. -/
def nodeText : DomNode → String
  | .text s => s
  | .elem _ _ _ cs => forestText cs
def forestText : DomForest → String
  | .nil => ""
  | .cons n ns => nodeText n ++ forestText ns
end

mutual
/-- All descendant element nodes of a node, in document (pre-)order.
The node itself is not included, matching jQuery's `.find`. -/
def descElems : DomNode → List DomNode
  | .text _ => []
  | .elem _ _ _ cs => forestDescElems cs
def forestDescElems : DomForest → List DomNode
  | .nil => []
  | .cons (.text _) ns => forestDescElems ns
  | .cons (.elem t c a ch) ns =>
      DomNode.elem t c a ch :: (forestDescElems ch ++ forestDescElems ns)
end

/-- Whether an element node carries a CSS class. -/
def hasClass (c : String) : DomNode → Bool
  | .text _ => false
  | .elem _ classes _ _ => classes.contains c

/-- Whether a node is an element with the given tag. -/
def tagIs (t : String) : DomNode → Bool
  | .text _ => false
  | .elem tag _ _ _ => tag == t

/-- jQuery `.attr(name)` on one element: `none` models JavaScript `undefined`. -/
def getAttr (name : String) : DomNode → Option String
  | .text _ => none
  | .elem _ _ attrs _ => (attrs.find? (fun p => p.1 == name)).map Prod.snd

mutual
/-- Descendant elements satisfying `tgt` that have a (strict) ancestor
satisfying `anc` inside the queried node; models a two-part descendant
selector such as `.hauptlink a`.  `flag` records whether an ancestor
already satisfied `anc`. -/
def findUnderNode (anc tgt : DomNode → Bool) (flag : Bool) : DomNode → List DomNode
  | .text _ => []
  | .elem t c a ch =>
      let n := DomNode.elem t c a ch
      (if flag && tgt n then [n] else []) ++ findUnderForest anc tgt (flag || anc n) ch
def findUnderForest (anc tgt : DomNode → Bool) (flag : Bool) : DomForest → List DomNode
  | .nil => []
  | .cons n ns => findUnderNode anc tgt flag n ++ findUnderForest anc tgt flag ns
end

mutual
/-- The row selector `table.items tbody tr.odd, table.items tbody tr.even`:
`f1` records an ancestor `table.items`, `f2` an ancestor `tbody` below it. -/
def rowsNode (f1 f2 : Bool) : DomNode → List DomNode
  | .text _ => []
  | .elem t c a ch =>
      let n := DomNode.elem t c a ch
      (if f2 && t == "tr" && (c.contains "odd" || c.contains "even") then [n] else []) ++
        rowsForest (f1 || (t == "table" && c.contains "items"))
          (f2 || (f1 && t == "tbody")) ch
def rowsForest (f1 f2 : Bool) : DomForest → List DomNode
  | .nil => []
  | .cons n ns => rowsNode f1 f2 n ++ rowsForest f1 f2 ns
end

/-- `$('table.items tbody tr.odd, table.items tbody tr.even')` over the document. -/
def selectRows (doc : DomNode) : List DomNode := rowsNode false false doc

/-- The JavaScript `\s` class (and the white space removed by `.trim()`),
restricted to the characters that can occur in the scraped cells (ASCII
whitespace and the no-break space). -/
def isJsSpace (c : Char) : Bool :=
  c == ' ' || c == '\t' || c == '\n' || c == '\r' || c == '\x0b' || c == '\x0c' || c == '\u00A0'

/-- `.trim()`: drop white space from both ends.  Written over the character
list (rather than `String.trim`, whose byte-position loops do not reduce
inside the kernel). -/
def jsTrim (s : String) : String :=
  String.mk (((s.data.dropWhile isJsSpace).reverse.dropWhile isJsSpace).reverse)

/-- JavaScript `s || "N/A"` on a string: the empty string is falsy. -/
def orNA (s : String) : String := if s = "" then "N/A" else s

/-- JavaScript `x || "N/A"` where `x` may be `undefined` (modelled `none`). -/
def optOrNA : Option String → String
  | none => "N/A"
  | some s => orNA s

/-- JavaScript `x?.trim() || "N/A"` where `x` may be `undefined`. -/
def optTrimOrNA : Option String → String
  | none => "N/A"
  | some s => orNA (jsTrim s)

/-- Text of the `k`-th element of a selection (`.eq(k).text()`); the empty
selection yields the empty string. -/
def eqText (ns : List DomNode) (k : Nat) : String :=
  match ns[k]? with
  | some n => nodeText n
  | none => ""

/-! ### The three regular expressions of the source, as direct recognizers -/

/-- Anchored match of `/^(\d{2}\/\d{2}\/\d{4}) \((\d{2})\)$/` (tm.js lines
80 and 82): group 1 is the date, group 2 the age; `none` models a `null`
match result. -/
def dobMatch (s : String) : Option (String × String) :=
  match s.data with
  | [d1, d2, s1, d3, d4, s2, y1, y2, y3, y4, sp, op, a1, a2, cp] =>
      if d1.isDigit && d2.isDigit && s1 == '/' && d3.isDigit && d4.isDigit && s2 == '/' &&
          y1.isDigit && y2.isDigit && y3.isDigit && y4.isDigit && sp == ' ' && op == '(' &&
          a1.isDigit && a2.isDigit && cp == ')' then
        some (String.mk [d1, d2, s1, d3, d4, s2, y1, y2, y3, y4], String.mk [a1, a2])
      else none
  | _ => none

/-- Leftmost match of `/\d{1},\d{2}/` (tm.js line 96), scanning character by
character as the JavaScript engine does. -/
def heightScan : List Char → Option String
  | a :: b :: c :: d :: rest =>
      if a.isDigit && b == ',' && c.isDigit && d.isDigit then some (String.mk [a, b, c, d])
      else heightScan (b :: c :: d :: rest)
  | _ => none

/-- `s.match(/\d{1},\d{2}/)?.[0]`. -/
def heightMatch (s : String) : Option String := heightScan s.data

/-- Match a fixed literal at the head of the input, returning the rest. -/
def dropLit : List Char → List Char → Option (List Char)
  | [], cs => some cs
  | _ :: _, [] => none
  | l :: ls, c :: cs => if c == l then dropLit ls cs else none

/-- `String.prototype.split` with a non-empty string separator, scanning
left to right without overlap.  Fuel-based structural recursion (the fuel
is the remaining length) so that it reduces inside the kernel. -/
def jsSplitAux (sep : List Char) : Nat → List Char → List Char → List String
  | _, [], acc => [String.mk acc.reverse]
  | 0, cs, acc => [String.mk (acc.reverse ++ cs)]
  | fuel + 1, c :: cs, acc =>
      match dropLit sep (c :: cs) with
      | some rest => String.mk acc.reverse :: jsSplitAux sep fuel rest []
      | none => jsSplitAux sep fuel cs (c :: acc)

/-- `s.split(sep)` (tm.js line 72 uses `href.split("spieler/")`). -/
def jsSplit (s sep : String) : List String :=
  jsSplitAux sep.data s.data.length s.data []

/-- Leftmost match of `/verein\/(\d+)/` (tm.js lines 132 and 149), returning
capture group 1 (the maximal digit run after the literal). -/
def vereinScan : List Char → Option String
  | [] => none
  | c :: cs =>
      match dropLit ['v', 'e', 'r', 'e', 'i', 'n', '/'] (c :: cs) with
      | some rest =>
          let ds := rest.takeWhile Char.isDigit
          if ds.isEmpty then vereinScan cs else some (String.mk ds)
      | none => vereinScan cs

/-- `href.match(/verein\/(\d+)/)`, capture group 1. -/
def vereinMatch (s : String) : Option String := vereinScan s.data

/-- Greedy `\d{1,3}` at the head of the input: up to three digits and the rest. -/
def mvDigits13 : List Char → Option (List Char × List Char)
  | [] => none
  | c :: rest =>
      if c.isDigit then
        match rest with
        | c2 :: rest2 =>
            if c2.isDigit then
              match rest2 with
              | c3 :: rest3 =>
                  if c3.isDigit then some ([c, c2, c3], rest3) else some ([c, c2], rest2)
              | [] => some ([c, c2], [])
            else some ([c], rest)
        | [] => some ([c], [])
      else none

/-- Greedy `(?:\.\d{3})*` at the head of the input: consumed characters and rest. -/
def mvThousands : List Char → List Char × List Char
  | '.' :: d1 :: d2 :: d3 :: rest =>
      if d1.isDigit && d2.isDigit && d3.isDigit then
        let (more, rest2) := mvThousands rest
        ('.' :: d1 :: d2 :: d3 :: more, rest2)
      else ([], '.' :: d1 :: d2 :: d3 :: rest)
  | cs => ([], cs)

/-- The unit alternation `(mil|mi\.?)`: `mil` is preferred, then `mi.`
(greedy optional dot), then `mi`. -/
def mvUnit : List Char → Option (String × List Char)
  | 'm' :: 'i' :: 'l' :: rest => some ("mil", rest)
  | 'm' :: 'i' :: '.' :: rest => some ("mi.", rest)
  | 'm' :: 'i' :: rest => some ("mi", rest)
  | _ => none

/-- The currency class `([€$£])`. -/
def mvCurrency : List Char → Option (String × List Char)
  | '€' :: rest => some ("€", rest)
  | '$' :: rest => some ("$", rest)
  | '£' :: rest => some ("£", rest)
  | _ => none

/-- One attempt of `/(\d{1,3}(?:\.\d{3})*(?:,\d{2})?)\s*(mil|mi\.?)\s*([€$£])/`
at a fixed start position.  Committed maximal munch coincides with the
backtracking JavaScript engine here: after the amount the continuation can
only start with whitespace or `m`, so giving back digits, a `.ddd` group or
the `,dd` group always leaves a digit, a dot or a comma under a class that
rejects it; and whenever `mil` matches but the continuation fails, the
`mi\.?` branch leaves an `l` under `\s*[€$£]`, which also fails. -/
def mvTryAt (cs : List Char) : Option (String × String × String) := do
  let (d, r1) ← mvDigits13 cs
  let (th, r2) := mvThousands r1
  let (dec, r3) :=
    match r2 with
    | ',' :: e1 :: e2 :: rest =>
        if e1.isDigit && e2.isDigit then ([',', e1, e2], rest) else ([], r2)
    | _ => ([], r2)
  let r4 := r3.dropWhile isJsSpace
  let (unit, r5) ← mvUnit r4
  let r6 := r5.dropWhile isJsSpace
  let (cur, _) ← mvCurrency r6
  some (String.mk (d ++ th ++ dec), unit, cur)

/-- Leftmost match of the market-value pattern (tm.js line 113): groups
(amount, unit, currency). -/
def mvScan : List Char → Option (String × String × String)
  | [] => none
  | c :: cs =>
      match mvTryAt (c :: cs) with
      | some r => some r
      | none => mvScan cs

/-! ### Locale number parsing -/

/-- Decimal digits to a natural number. -/
def digitsToNat (cs : List Char) : Nat :=
  cs.foldl (fun a c => a * 10 + (c.toNat - 48)) 0

/-- `10 ^ n` as a natural number. -/
def pow10 : Nat → Nat
  | 0 => 1
  | n + 1 => 10 * pow10 n

/-- `parseFloat` on the normalized amount strings the source produces
(digits, optionally one decimal point and more digits): the value
`intPart + fracPart / 10 ^ fracLen`, written as the single exact fraction
`mkRat (intPart * 10 ^ fracLen + fracPart) (10 ^ fracLen)` because `mkRat`
reduces inside the kernel while `Rat` addition and division do not.  The
source computes an IEEE double; the embedding uses the exact rational
value, which agrees with the double on every value the claims mention. -/
def parseDec (s : String) : Rat :=
  let intPart := s.data.takeWhile (fun c => !(c == '.'))
  match s.data.dropWhile (fun c => !(c == '.')) with
  | [] => (digitsToNat intPart : Rat)
  | _ :: frac =>
      mkRat (digitsToNat intPart * pow10 frac.length + digitsToNat frac) (pow10 frac.length)

/-- Multiplication of a rational by a natural constant, written as `mkRat`
so that it reduces inside the kernel; `ratMulNat_eq` shows it is ordinary
multiplication. -/
def ratMulNat (q : Rat) (n : Nat) : Rat := mkRat (q.num * n) q.den

/-! ### The Player record (tm.js lines 68-162) -/

/-- `marketValue` sub-object. -/
structure MarketValue where
  value : Rat
  currency : String
deriving DecidableEq, Repr

/-- `lastClub` sub-object. -/
structure LastClub where
  signed_from_club_name : String
  signed_from_club_id : String
  signed_from_club_image_url : String
deriving DecidableEq, Repr

/-- `additionalInformation` sub-object. -/
structure AdditionalInfo where
  content : String
  info_club_name : String
  info_club_id : String
  info_club_image_url : String
deriving DecidableEq, Repr

/-- One extracted player (`playerData` in tm.js). -/
structure Player where
  name : String
  id : String
  position : String
  shirtNumber : String
  image : String
  dateOfBirth : String
  age : String
  nationality : List String
  height : String
  foot : String
  injury : Bool
  captain : Bool
  suspension : Bool
  joined : String
  contractUntil : String
  marketValue : MarketValue
  lastClub : Option LastClub
  additionalInformation : Option AdditionalInfo
deriving DecidableEq, Repr

/-! ### The per-field extraction rules of the row callback -/

/-- `$(row).find('.hauptlink a')`. -/
def hauptlinkAnchors (row : DomNode) : List DomNode :=
  findUnderNode (hasClass "hauptlink") (tagIs "a") false row

/-- tm.js line 70: `$(row).find('.hauptlink a').eq(0).text().trim() || 'N/A'`. -/
def nameOf (row : DomNode) : String :=
  orNA (jsTrim (eqText (hauptlinkAnchors row) 0))

/-- `$(row).find('.zentriert')`. -/
def zentrierts (row : DomNode) : List DomNode :=
  (descElems row).filter (hasClass "zentriert")

/-- tm.js line 74: `$(row).find('td').eq(4).text().trim() || 'N/A'`. -/
def positionOf (row : DomNode) : String :=
  orNA (jsTrim (eqText ((descElems row).filter (tagIs "td")) 4))

/-- tm.js line 76: `$(row).find('.rn_nummer').eq(0).text().trim() || 'N/A'`. -/
def shirtNumberOf (row : DomNode) : String :=
  orNA (jsTrim (eqText ((descElems row).filter (hasClass "rn_nummer")) 0))

/-- tm.js line 78: `$(row).find('td[rowspan="2"] img').attr('data-src') || 'N/A'`. -/
def imageOf (row : DomNode) : String :=
  optOrNA ((findUnderNode
      (fun n => tagIs "td" n && (getAttr "rowspan" n == some "2"))
      (tagIs "img") false row).head?.bind (getAttr "data-src"))

/-- The trimmed text of the second `.zentriert` cell (tm.js lines 80 and 82). -/
def dobCellText (row : DomNode) : String := jsTrim (eqText (zentrierts row) 1)

/-- tm.js lines 84-94: the kept nationality titles, in document order.
`$(img).attr('title') || 'N/A'` coerces a missing or empty title to the
sentinel, and sentinel entries are not pushed. -/
def natTitles (row : DomNode) : List String :=
  let imgs :=
    match (zentrierts row)[2]? with
    | some cell => (descElems cell).filter (tagIs "img")
    | none => []
  imgs.filterMap (fun img =>
    let nat := optOrNA (getAttr "title" img)
    if nat ≠ "N/A" then some nat else none)

/-- tm.js line 93: `nationalities.length > 0 ? nationalities : ['N/A']`. -/
def nationalityOf (row : DomNode) : List String :=
  if 0 < (natTitles row).length then natTitles row else ["N/A"]

/-- tm.js line 96: height pattern with `'N/A'` fallback. -/
def heightOf (row : DomNode) : String :=
  match heightMatch (jsTrim (eqText (zentrierts row) 3)) with
  | some m => m
  | none => "N/A"

/-- tm.js line 98: `$(row).find('.zentriert').eq(4).text().trim() || 'N/A'`. -/
def footOf (row : DomNode) : String :=
  orNA (jsTrim (eqText (zentrierts row) 4))

/-- tm.js lines 100-104: `$(row).find('.CLASS').length > 0 ? true : false`. -/
def markerOf (row : DomNode) (c : String) : Bool :=
  if 0 < ((descElems row).filter (hasClass c)).length then true else false

/-- tm.js line 100. -/
def injuryOf (row : DomNode) : Bool := markerOf row "verletzt-table"

/-- tm.js line 102. -/
def captainOf (row : DomNode) : Bool := markerOf row "kapitaenicon-table"

/-- tm.js line 104. -/
def suspensionOf (row : DomNode) : Bool := markerOf row "ausfall-1-table"

/-- tm.js line 106: `$(row).find('.zentriert').eq(5).text().trim() || 'N/A'`. -/
def joinedOf (row : DomNode) : String :=
  orNA (jsTrim (eqText (zentrierts row) 5))

/-- tm.js line 108: `$(row).find('.zentriert').eq(7).text().trim() || 'N/A'`. -/
def contractUntilOf (row : DomNode) : String :=
  orNA (jsTrim (eqText (zentrierts row) 7))

/-- tm.js line 115: `replace(/\./g, '')` strips every `.` (thousands
separator) and `replace(',', '.')` turns the first `,` into `.`.  Matched
amounts contain at most one comma, so a character map is the same
replacement (and, unlike `String.replace`, it reduces inside the kernel). -/
def normalizeAmount (s : String) : String :=
  String.mk ((s.data.filter (fun c => !(c == '.'))).map (fun c => if c == ',' then '.' else c))

/-- tm.js lines 110-126 on the text of the `.rechts` cell: the market-value
IIFE, from the `|| 'N/A'` coercion through the unit multiplication. -/
def marketValueFromCell (raw : String) : MarketValue :=
  let marketValueText := orNA (jsTrim raw)
  if marketValueText ≠ "N/A" then
    match mvScan marketValueText.data with
    | some (amt, unit, cur) =>
        let rawValue := normalizeAmount amt
        { value :=
            if unit = "mi." then ratMulNat (parseDec rawValue) 1000000
            else ratMulNat (parseDec rawValue) 1000
          currency := cur }
    | none => { value := 0, currency := "N/A" }
  else { value := 0, currency := "N/A" }

/-- The text of the first `.rechts` cell (tm.js line 111). -/
def rechtsText (row : DomNode) : String :=
  eqText ((descElems row).filter (hasClass "rechts")) 0

/-- tm.js lines 110-126. -/
def marketValueOf (row : DomNode) : MarketValue :=
  marketValueFromCell (rechtsText row)

/-- tm.js lines 128-142: the `lastClub` IIFE.  The guard is only on the
presence of the seventh `.zentriert` cell; a present but empty cell still
produces a record (with every sub-field defaulted to `'N/A'`). -/
def lastClubOf (row : DomNode) : Option LastClub :=
  match (zentrierts row)[6]? with
  | some cell =>
      let imgs := (descElems cell).filter (tagIs "img")
      let anchors := (descElems cell).filter (tagIs "a")
      some
        { signed_from_club_name := optTrimOrNA (imgs.head?.bind (getAttr "title"))
          signed_from_club_id :=
            match (anchors.head?.bind (getAttr "href")).bind vereinMatch with
            | some cid => cid
            | none => "N/A"
          signed_from_club_image_url := optOrNA (imgs.head?.bind (getAttr "src")) }
  | none => none

/-- `$(row).find('.wechsel-kader-wappen a')`. -/
def wechselAnchors (row : DomNode) : List DomNode :=
  findUnderNode (hasClass "wechsel-kader-wappen") (tagIs "a") false row

/-- tm.js lines 144-160: the `additionalInformation` IIFE. -/
def additionalInformationOf (row : DomNode) : Option AdditionalInfo :=
  let linkElement := wechselAnchors row
  match linkElement.head? with
  | some a0 =>
      let imgs := ((linkElement.map (fun n => (descElems n).filter (tagIs "img")))).flatten
      some
        { content := optTrimOrNA (getAttr "title" a0)
          info_club_name := optTrimOrNA (imgs.head?.bind (getAttr "title"))
          info_club_id :=
            match (getAttr "href" a0).bind vereinMatch with
            | some cid => cid
            | none => "N/A"
          info_club_image_url := optOrNA (imgs.head?.bind (getAttr "src")) }
  | none => none

/-- tm.js lines 68-162: one roster row to one `Player`.  The two steps that
can throw — `.attr('href').split(...)` on an undefined `href` (line 72) and
`match(...)[1]` on a failed date-of-birth match (lines 80/82) — are the
`none` cases; every other field degrades on its own. -/
def extractPlayer (row : DomNode) : Option Player :=
  match (hauptlinkAnchors row).head?.bind (getAttr "href") with
  | none => none
  | some href =>
      match dobMatch (dobCellText row) with
      | none => none
      | some da =>
          some
            { name := nameOf row
              id := optOrNA ((jsSplit href "spieler/")[1]?)
              position := positionOf row
              shirtNumber := shirtNumberOf row
              image := imageOf row
              dateOfBirth := da.1
              age := da.2
              nationality := nationalityOf row
              height := heightOf row
              foot := footOf row
              injury := injuryOf row
              captain := captainOf row
              suspension := suspensionOf row
              joined := joinedOf row
              contractUntil := contractUntilOf row
              marketValue := marketValueOf row
              lastClub := lastClubOf row
              additionalInformation := additionalInformationOf row }

/-- The `$(...).each` loop of tm.js lines 66-166: all rows must extract, in
order; a throw in any row callback aborts the loop (and is caught outside). -/
def extractAll : List DomNode → Option (List Player)
  | [] => some []
  | r :: rs =>
      match extractPlayer r, extractAll rs with
      | some p, some ps => some (p :: ps)
      | _, _ => none

/-- The outcome of `axios.get` plus `cheerio.load`: either a parsed document
or a rejection (network error or non-2xx status). -/
inductive FetchOutcome where
  | ok (doc : DomNode)
  | error

/-- tm.js lines 56-176: `getClubSquad`.  The `try`/`catch` makes the function
total — a fetch error or a throw inside the `.each` callback yields `[]`. -/
def getClubSquad : FetchOutcome → List Player
  | .error => []
  | .ok doc =>
      match extractAll (selectRows doc) with
      | some players => players
      | none => []

/-! ### The spec-side nationality rule, for comparison (claim C6) -/

/-- The nationality rule as the specification words it: collect the `title`
attribute of every flag image in the third centered cell in document
order, skip any title equal to `"N/A"`, and fall back to `["N/A"]` when no
titles remain.  Unlike the source (`natTitles`), this keeps an empty-string
title. -/
def claimNationalityOf (row : DomNode) : List String :=
  let imgs :=
    match (zentrierts row)[2]? with
    | some cell => (descElems cell).filter (tagIs "img")
    | none => []
  let kept := (imgs.filterMap (getAttr "title")).filter (fun t => !(t == "N/A"))
  if kept.isEmpty then ["N/A"] else kept

/-! ### Concrete fixtures (synthetic rows and documents) -/

/-- A centered cell with the given text. -/
def tdZ (s : String) : DomNode := el "td" ["zentriert"] [] [txt s]

/-- A well-formed date-of-birth cell. -/
def dobCell : DomNode := tdZ "31/01/1999 (25)"

/-- A `hauptlink` cell holding the primary profile link (no visible text). -/
def hauptTd : DomNode :=
  el "td" ["hauptlink"] [] [el "a" [] [("href", "/hugo-souza/profil/spieler/123")] []]

/-- A minimal fully-extractable row: a primary link and a valid
date-of-birth cell, every other expected sub-element absent. -/
def rowMinimal : DomNode := el "tr" ["odd"] [] [tdZ "", dobCell, hauptTd]

/-- The player `rowMinimal` extracts to: every degradable field at its
documented default. -/
def playerMinimal : Player :=
  { name := "N/A", id := "123", position := "N/A", shirtNumber := "N/A", image := "N/A",
    dateOfBirth := "31/01/1999", age := "25", nationality := ["N/A"], height := "N/A",
    foot := "N/A", injury := false, captain := false, suspension := false,
    joined := "N/A", contractUntil := "N/A",
    marketValue := { value := 0, currency := "N/A" },
    lastClub := none, additionalInformation := none }

/-- A row whose only defect is the missing primary link (its date-of-birth
cell is valid). -/
def rowNoLink : DomNode := el "tr" ["odd"] [] [tdZ "", dobCell]

/-- A row whose only defect is a date-of-birth cell that does not match
`DD/MM/YYYY (AA)`. -/
def rowBadDob : DomNode := el "tr" ["even"] [] [tdZ "", tdZ "01/01/2000", hauptTd]

/-- A document whose roster table holds one valid row and one row with a
malformed date-of-birth cell. -/
def docMixed : DomNode :=
  el "html" [] []
    [el "table" ["items"] [] [el "tbody" [] [] [rowMinimal, rowBadDob]]]

/-- A row with seven centered cells whose seventh ("signed from") cell is
present but empty. -/
def rowEmptyCell7 : DomNode :=
  el "tr" ["even"] [] [tdZ "", dobCell, tdZ "", tdZ "", tdZ "", tdZ "", tdZ "", hauptTd]

/-- A nationality cell with two titled flag images. -/
def natCellTwoFlags : DomNode :=
  el "td" ["zentriert"] []
    [el "img" [] [("title", "Brasil")] [], el "img" [] [("title", "Portugal")] []]

/-- A row whose nationality cell has flags titled "Brasil" and "Portugal". -/
def rowTwoFlags : DomNode :=
  el "tr" ["odd"] [] [tdZ "", dobCell, natCellTwoFlags, hauptTd]

/-- A row whose nationality cell has a single flag image whose `title`
attribute is present but empty. -/
def rowEmptyTitleFlag : DomNode :=
  el "tr" ["odd"] []
    [tdZ "", dobCell, el "td" ["zentriert"] [] [el "img" [] [("title", "")] []], hauptTd]

/-- A marker icon with the given class. -/
def markerSpan (c : String) : DomNode := el "span" [c] [] []

/-- A fully-extractable row carrying exactly the marker icons selected by
the three flags. -/
def rowMarkers (b1 b2 b3 : Bool) : DomNode :=
  el "tr" ["odd"] []
    ([tdZ "", dobCell, hauptTd] ++
      (if b1 then [markerSpan "verletzt-table"] else []) ++
      (if b2 then [markerSpan "kapitaenicon-table"] else []) ++
      (if b3 then [markerSpan "ausfall-1-table"] else []))

/-- A row with a market-value cell. -/
def rowWithValue : DomNode :=
  el "tr" ["odd"] []
    [tdZ "", dobCell, hauptTd, el "td" ["rechts"] [] [txt "4,00 mi. €"]]

/-- The player `rowWithValue` extracts to. -/
def playerWithValue : Player :=
  { playerMinimal with marketValue := { value := 4000000, currency := "€" } }

/-! ### Helper lemmas -/

/-- `ratMulNat` is ordinary multiplication. -/
theorem ratMulNat_eq (q : Rat) (n : Nat) : ratMulNat q n = q * (n : Rat) := by
  unfold ratMulNat
  rw [Rat.mkRat_eq_div]
  push_cast
  rw [mul_div_right_comm, Rat.num_div_den]

/-- The amounts the market-value pattern matches are non-negative. -/
theorem parseDec_nonneg (s : String) : 0 ≤ parseDec s := by
  unfold parseDec
  split
  · exact Nat.cast_nonneg _
  · rw [Rat.mkRat_eq_div]
    positivity

/-- Scaling a non-negative rational by a natural stays non-negative. -/
theorem ratMulNat_nonneg (q : Rat) (n : Nat) (h : 0 ≤ q) : 0 ≤ ratMulNat q n := by
  rw [ratMulNat_eq]
  exact mul_nonneg h (Nat.cast_nonneg n)

/-- When the market-value pattern does not match (on the trimmed cell
text), the extractor returns the `{0, "N/A"}` default. -/
theorem marketValueFromCell_none (t : String) (h : mvScan (jsTrim t).data = none) :
    marketValueFromCell t = { value := 0, currency := "N/A" } := by
  by_cases h1 : jsTrim t = ""
  · simp [marketValueFromCell, orNA, h1]
  · by_cases h2 : jsTrim t = "N/A"
    · simp [marketValueFromCell, orNA, h1, h2]
    · simp [marketValueFromCell, orNA, h1, h2, h]

/-- When the market-value pattern matches (on the trimmed cell text), the
extractor normalizes the amount and applies the unit multiplier. -/
theorem marketValueFromCell_some (t a u c : String)
    (h : mvScan (jsTrim t).data = some (a, u, c)) :
    marketValueFromCell t =
      { value :=
          if u = "mi." then ratMulNat (parseDec (normalizeAmount a)) 1000000
          else ratMulNat (parseDec (normalizeAmount a)) 1000
        currency := c } := by
  have h1 : jsTrim t ≠ "" := by
    intro he
    rw [he] at h
    exact Option.noConfusion h
  have h2 : jsTrim t ≠ "N/A" := by
    intro he
    rw [he] at h
    rw [(by decide : mvScan ("N/A" : String).data = none)] at h
    exact Option.noConfusion h
  simp [marketValueFromCell, orNA, h1, h2, h]

/-- The extracted market value is never negative, whatever the cell text. -/
theorem marketValueFromCell_value_nonneg (t : String) :
    0 ≤ (marketValueFromCell t).value := by
  cases h : mvScan (jsTrim t).data with
  | none => rw [marketValueFromCell_none t h]
  | some r =>
      obtain ⟨a, u, c⟩ := r
      rw [marketValueFromCell_some t a u c h]
      dsimp only
      split <;> exact ratMulNat_nonneg _ _ (parseDec_nonneg _)

/-- A row whose primary-link `href` and date-of-birth cell both resolve
yields a record built from the per-field rules; this names every
non-throwing field of that record. -/
theorem extractPlayer_fields (row : DomNode) (p : Player) (h : extractPlayer row = some p) :
    p.name = nameOf row ∧ p.position = positionOf row ∧
    p.shirtNumber = shirtNumberOf row ∧ p.image = imageOf row ∧
    p.nationality = nationalityOf row ∧ p.height = heightOf row ∧
    p.foot = footOf row ∧ p.injury = injuryOf row ∧ p.captain = captainOf row ∧
    p.suspension = suspensionOf row ∧ p.joined = joinedOf row ∧
    p.contractUntil = contractUntilOf row ∧ p.marketValue = marketValueOf row ∧
    p.lastClub = lastClubOf row ∧ p.additionalInformation = additionalInformationOf row := by
  unfold extractPlayer at h
  split at h
  · exact Option.noConfusion h
  · split at h
    · exact Option.noConfusion h
    · injection h with h
      subst h
      exact ⟨rfl, rfl, rfl, rfl, rfl, rfl, rfl, rfl, rfl, rfl, rfl, rfl, rfl, rfl, rfl⟩

/-- A failed date-of-birth match aborts the whole row callback. -/
theorem extractPlayer_none_of_dob (row : DomNode)
    (h : dobMatch (dobCellText row) = none) : extractPlayer row = none := by
  unfold extractPlayer
  split
  · rfl
  · rw [h]

/-- One aborting row aborts the whole `.each` loop. -/
theorem extractAll_none (rows : List DomNode) (r : DomNode) (hmem : r ∈ rows)
    (hr : extractPlayer r = none) : extractAll rows = none := by
  induction rows with
  | nil => cases hmem
  | cons a rest ih =>
      cases hmem with
      | head => simp [extractAll, hr]
      | tail _ hmem2 =>
          unfold extractAll
          rw [ih hmem2]
          cases hx : extractPlayer a <;> rfl

/-- A failed row extraction makes `getClubSquad` return the empty list. -/
theorem getClubSquad_of_extractAll_none (doc : DomNode)
    (h : extractAll (selectRows doc) = none) : getClubSquad (.ok doc) = [] := by
  simp [getClubSquad, h]

/-- The marker check of tm.js lines 100-104 is exactly class presence. -/
theorem markerOf_eq_true_iff (row : DomNode) (c : String) :
    markerOf row c = true ↔ 0 < ((descElems row).filter (hasClass c)).length := by
  unfold markerOf
  split <;> rename_i h <;> simp [h]

/-! ### Claims -/

/-- C1: for every club identifier, if the fetch step fails (network error,
non-2xx response) or the parse/extract step throws on any row, the
`getClubSquad` call does not raise past its boundary: being a total
function into player lists, it returns, and on such inputs it returns the
empty sequence. -/
theorem getClubSquad_fail_soft (input : FetchOutcome)
    (h : input = .error ∨
      ∃ doc r, input = .ok doc ∧ r ∈ selectRows doc ∧ extractPlayer r = none) :
    getClubSquad input = [] := by
  rcases h with h | ⟨doc, r, hin, hmem, hr⟩
  · subst h
    rfl
  · subst hin
    exact getClubSquad_of_extractAll_none doc (extractAll_none _ r hmem hr)

/-- C1 witness: an upstream network error yields the empty sequence. -/
theorem getClubSquad_fail_soft_witness : getClubSquad .error = [] :=
  getClubSquad_fail_soft .error (Or.inl rfl)

/-- C2 counterexample: the extraction rules are not all independent.  In
`rowNoLink` only the primary link is absent (its date-of-birth cell is
valid), but instead of degrading just the name/id fields to `'N/A'` the
whole row callback throws (line 72 calls `.split` on an undefined
`href`), so the row extracts to nothing. -/
theorem extraction_rules_independent_cex : extractPlayer rowNoLink = none := by decide

/-- C2 amended: each extraction rule other than id and date-of-birth/age is
independent — `rowMinimal`, which has only a primary link and a valid
date-of-birth cell, still extracts, with every other field degraded to its
documented default (`playerMinimal`) — but a missing primary link
(`rowNoLink`) or a non-matching date-of-birth text (`rowBadDob`) throws
and aborts the whole row. -/
theorem extraction_rules_amended :
    extractPlayer rowMinimal = some playerMinimal ∧
    extractPlayer rowNoLink = none ∧
    extractPlayer rowBadDob = none := by decide

/-- C3: if any roster row's second centered cell fails the
`DD/MM/YYYY (AA)` pattern, the extraction throws, the `getClubSquad`
catch swallows it, and the whole call returns the empty sequence — every
other row of the same page is discarded rather than returned. -/
theorem malformed_dob_discards_page (doc row : DomNode) (hmem : row ∈ selectRows doc)
    (hdob : dobMatch (dobCellText row) = none) :
    getClubSquad (.ok doc) = [] :=
  getClubSquad_of_extractAll_none doc
    (extractAll_none _ row hmem (extractPlayer_none_of_dob row hdob))

/-- C3 witness: `docMixed` holds one fully valid row and one row with a
malformed date-of-birth cell; the whole call returns `[]`. -/
theorem malformed_dob_discards_page_witness : getClubSquad (.ok docMixed) = [] :=
  malformed_dob_discards_page docMixed rowBadDob
    (List.Mem.tail _ (List.Mem.head _)) (by decide)

/-- C4: market-value normalization — `"4,00 mi. €"` gives
`{4000000, "€"}`, `"500 mil €"` gives `{500000, "€"}`, any text on which
the pattern fails gives `{0, "N/A"}`, and in general a match is normalized
(dots stripped, comma to dot) and multiplied by 1,000,000 for `mi.` and by
1,000 otherwise. -/
theorem marketValue_normalization :
    marketValueFromCell "4,00 mi. €" = { value := 4000000, currency := "€" } ∧
    marketValueFromCell "500 mil €" = { value := 500000, currency := "€" } ∧
    (∀ t, mvScan (jsTrim t).data = none →
      marketValueFromCell t = { value := 0, currency := "N/A" }) ∧
    (∀ t a u c, mvScan (jsTrim t).data = some (a, u, c) →
      marketValueFromCell t =
        { value :=
            if u = "mi." then parseDec (normalizeAmount a) * 1000000
            else parseDec (normalizeAmount a) * 1000
          currency := c }) := by
  refine ⟨by decide, by decide, fun t h => marketValueFromCell_none t h, fun t a u c h => ?_⟩
  rw [marketValueFromCell_some t a u c h]
  simp only [ratMulNat_eq, Nat.cast_ofNat]

/-- C4 witness: a non-matching text yields the `{0, "N/A"}` default. -/
theorem marketValue_normalization_witness :
    marketValueFromCell "hello" = { value := 0, currency := "N/A" } :=
  marketValue_normalization.2.2.1 "hello" (by decide)

/-- C5 counterexample: in `rowEmptyCell7` the seventh centered
("signed-from") cell is present but empty; contrary to the claim,
`lastClub` is not null — it is a record with every sub-field defaulted to
`'N/A'` (the guard on tm.js line 130 only checks that the cell exists). -/
theorem lastClub_empty_cell_cex :
    (extractPlayer rowEmptyCell7).map Player.lastClub =
      some (some { signed_from_club_name := "N/A", signed_from_club_id := "N/A",
                   signed_from_club_image_url := "N/A" }) := by decide

/-- C5 amended: `lastClub` is null exactly when the seventh centered cell
is absent (a present but empty cell yields an all-`'N/A'` record instead),
and `additionalInformation` is null exactly when the row has no
transfer-badge link element. -/
theorem optional_subobjects_amended (row : DomNode) (p : Player)
    (h : extractPlayer row = some p) :
    (p.lastClub = none ↔ (zentrierts row)[6]? = none) ∧
    (p.additionalInformation = none ↔ wechselAnchors row = []) := by
  obtain ⟨-, -, -, -, -, -, -, -, -, -, -, -, -, hlc, hai⟩ := extractPlayer_fields row p h
  constructor
  · rw [hlc]
    cases hz : (zentrierts row)[6]? with
    | none => simp [lastClubOf, hz]
    | some cell => simp [lastClubOf, hz]
  · rw [hai]
    cases hw : wechselAnchors row with
    | nil => simp [additionalInformationOf, hw]
    | cons a l => simp [additionalInformationOf, hw]

/-- C5 witness: `rowMinimal` has neither the seventh centered cell nor a
transfer badge, and both sub-objects are null. -/
theorem optional_subobjects_amended_witness :
    playerMinimal.lastClub = none ∧ playerMinimal.additionalInformation = none := by
  have h := optional_subobjects_amended rowMinimal playerMinimal (by decide)
  exact ⟨h.1.mpr rfl, h.2.mpr rfl⟩

/-- C6 counterexample: the extractor does not keep every title that differs
from `"N/A"` — an empty-string `title` is falsy, is coerced to the sentinel
by `|| 'N/A'`, and is skipped.  On `rowEmptyTitleFlag` the claim's
collection rule (`claimNationalityOf`) yields `[""]` while the extractor
yields `["N/A"]`. -/
theorem nationality_rule_cex :
    claimNationalityOf rowEmptyTitleFlag = [""] ∧
    (extractPlayer rowEmptyTitleFlag).map Player.nationality = some ["N/A"] := by decide

/-- C6 amended: `nationality` is never the empty sequence; flag-image
titles are collected in document order, but a title that is missing, empty
or equal to `"N/A"` is skipped, and when no titles remain the result is
exactly `["N/A"]`. -/
theorem nationality_invariant_amended (row : DomNode) (p : Player)
    (h : extractPlayer row = some p) :
    p.nationality ≠ [] ∧
    (natTitles row = [] → p.nationality = ["N/A"]) ∧
    (natTitles row ≠ [] → p.nationality = natTitles row) := by
  obtain ⟨-, -, -, -, hnat, -, -, -, -, -, -, -, -, -, -⟩ := extractPlayer_fields row p h
  rw [hnat]
  unfold nationalityOf
  by_cases hn : natTitles row = []
  · have hlen : ¬ 0 < (natTitles row).length := by simp [hn]
    rw [if_neg hlen]
    exact ⟨by simp, fun _ => rfl, fun hc => absurd hn hc⟩
  · have hlen : 0 < (natTitles row).length := List.length_pos.mpr hn
    rw [if_pos hlen]
    exact ⟨hn, fun hc => absurd hc hn, fun _ => rfl⟩

/-- C6 witness: `rowMinimal` has no nationality cell at all, and the
invariant instantiates to the `["N/A"]` fallback. -/
theorem nationality_invariant_amended_witness :
    playerMinimal.nationality ≠ [] ∧ playerMinimal.nationality = ["N/A"] := by
  have h := nationality_invariant_amended rowMinimal playerMinimal (by decide)
  exact ⟨h.1, h.2.1 (by decide)⟩

/-- C7: every extracted player's market value is a finite non-negative
number (an exact rational in the embedding): it is 0 when the cell text is
unparseable, and otherwise the non-negative parsed amount times its unit
multiplier. -/
theorem marketValue_value_invariant (row : DomNode) (p : Player)
    (h : extractPlayer row = some p) :
    0 ≤ p.marketValue.value ∧
    (mvScan (jsTrim (rechtsText row)).data = none → p.marketValue.value = 0) ∧
    (∀ a u c, mvScan (jsTrim (rechtsText row)).data = some (a, u, c) →
      0 ≤ parseDec (normalizeAmount a) ∧
      p.marketValue.value =
        parseDec (normalizeAmount a) * (if u = "mi." then 1000000 else 1000)) := by
  obtain ⟨-, -, -, -, -, -, -, -, -, -, -, -, hmv, -, -⟩ := extractPlayer_fields row p h
  rw [hmv]
  unfold marketValueOf
  refine ⟨marketValueFromCell_value_nonneg _, fun hn => ?_, fun a u c hs => ?_⟩
  · rw [marketValueFromCell_none _ hn]
  · refine ⟨parseDec_nonneg _, ?_⟩
    rw [marketValueFromCell_some _ a u c hs]
    dsimp only
    split <;> rw [ratMulNat_eq] <;> norm_num

/-- C7 witness: the `"4,00 mi. €"` cell of `rowWithValue` gives the
non-negative value 4000000. -/
theorem marketValue_value_invariant_witness :
    0 ≤ playerWithValue.marketValue.value ∧ playerWithValue.marketValue.value = 4000000 := by
  have h := marketValue_value_invariant rowWithValue playerWithValue (by decide)
  exact ⟨h.1, by decide⟩

/-- C8: `injury`, `captain` and `suspension` are each true exactly when
the corresponding marker-icon class appears in the row, independently of
one another — every one of the 8 presence combinations yields the matching
boolean triple. -/
theorem marker_booleans :
    (∀ row p, extractPlayer row = some p →
      ((p.injury = true ↔
          0 < ((descElems row).filter (hasClass "verletzt-table")).length) ∧
        (p.captain = true ↔
          0 < ((descElems row).filter (hasClass "kapitaenicon-table")).length) ∧
        (p.suspension = true ↔
          0 < ((descElems row).filter (hasClass "ausfall-1-table")).length))) ∧
    (∀ b1 b2 b3 : Bool,
      (extractPlayer (rowMarkers b1 b2 b3)).map
          (fun p => (p.injury, p.captain, p.suspension)) =
        some (b1, b2, b3)) := by
  constructor
  · intro row p h
    obtain ⟨-, -, -, -, -, -, -, hinj, hcap, hsus, -, -, -, -, -⟩ :=
      extractPlayer_fields row p h
    rw [hinj, hcap, hsus]
    exact ⟨markerOf_eq_true_iff row _, markerOf_eq_true_iff row _,
      markerOf_eq_true_iff row _⟩
  · intro b1 b2 b3
    cases b1 <;> cases b2 <;> cases b3 <;> decide

/-- C8 witness: the marker equivalences instantiated on `rowMinimal`,
which carries none of the three classes. -/
theorem marker_booleans_witness :
    (playerMinimal.injury = true ↔
      0 < ((descElems rowMinimal).filter (hasClass "verletzt-table")).length) ∧
    (playerMinimal.captain = true ↔
      0 < ((descElems rowMinimal).filter (hasClass "kapitaenicon-table")).length) ∧
    (playerMinimal.suspension = true ↔
      0 < ((descElems rowMinimal).filter (hasClass "ausfall-1-table")).length) :=
  marker_booleans.1 rowMinimal playerMinimal (by decide)

/-- C9: extraction is deterministic — two calls over identical upstream
content produce structurally identical (deep-equal) player sequences; the
embedded pipeline is a pure function of the fetched content. -/
theorem getClubSquad_deterministic (d1 d2 : FetchOutcome) (h : d1 = d2) :
    getClubSquad d1 = getClubSquad d2 := by rw [h]

/-- C9 witness: two runs over the same document agree. -/
theorem getClubSquad_deterministic_witness :
    getClubSquad (.ok docMixed) = getClubSquad (.ok docMixed) :=
  getClubSquad_deterministic (.ok docMixed) (.ok docMixed) rfl

/-- C10: when the unit token matches as `mi` without a trailing dot, the
pattern still matches, the strict comparison with `mi.` fails, and the
amount is multiplied by 1,000 rather than 1,000,000. -/
theorem mi_unit_without_dot (t a c : String)
    (h : mvScan (jsTrim t).data = some (a, "mi", c)) :
    marketValueFromCell t =
      { value := parseDec (normalizeAmount a) * 1000, currency := c } := by
  rw [marketValueFromCell_some t a "mi" c h]
  have hne : ¬ ("mi" : String) = "mi." := by decide
  rw [if_neg hne, ratMulNat_eq]
  norm_num

/-- C10 witness: `"4,00 mi €"` yields the value 4000 (not 4000000). -/
theorem mi_unit_without_dot_witness : (marketValueFromCell "4,00 mi €").value = 4000 := by
  rw [mi_unit_without_dot "4,00 mi €" "4,00" "€" (by decide)]
  rw [(by decide : parseDec (normalizeAmount "4,00") = 4)]
  norm_num
